import Mathlib

/-! Verification of the background evaluation queue subsystem of the
GenAI Assessment Engine.  The definitions below are a shallow embedding of
`src/evaluation_queue.py`, `src/utils.py` (the MCQ scorer) and
`src/app.py` (startup recovery): Python floats become rationals, the
stdlib `queue.PriorityQueue` becomes the CPython `heapq` algorithm over
lists, dict-backed records become structures, and the side effects of the
worker (durable-store calls, timers, callbacks) become explicit data in
the result records. -/

/-- A question record, holding the fields of the question dict that the
queue worker and the shared MCQ scorer (`utils.evaluate_mcq_answer`)
read: `id`, `type`, `question`, `options`, `correct_answer`,
`correct_answers`, `is_multi_select`, `marks`, `section_type`. -/
structure Question where
  id : Nat
  qtype : String
  question_text : String
  options : List String
  correct_answer : Nat
  correct_answers : Finset Nat
  is_multi_select : Bool
  marks : ℚ
  section_type : String
deriving DecidableEq

instance : Inhabited Question :=
  ⟨⟨0, "mcq", "", [], 0, ∅, false, 0, "technical"⟩⟩

/-- One section entry of `negative_marking_config`: the keys
`enabled`, `mcq_negative_marks` and `apply_to_unanswered` that
`evaluate_mcq_answer` reads. -/
structure SectionConfig where
  enabled : Bool
  mcq_negative_marks : ℚ
  apply_to_unanswered : Bool
deriving DecidableEq

/-- The `EvaluationTask` dataclass of `evaluation_queue.py`.  The
dataclass is declared `@dataclass(order=True)` and every field except
`priority` carries `compare=False`, so task comparison — the ordering
used by the `PriorityQueue` — looks at `priority` alone. -/
structure EvaluationTask where
  priority : Int
  created_at : ℚ
  result_id : String
  session_id : String
  exam_id : String
  candidate_name : String
  candidate_id : String
  answers : List (String × String)
  questions : List Question
  negative_marking_config : List (String × SectionConfig)
  show_feedback : Bool
  multi_select_scoring_mode : String
  retry_count : Nat
  max_retries : Nat
  long_retry_count : Nat
  max_long_retries : Nat
  last_error : String
deriving DecidableEq

instance : Inhabited EvaluationTask :=
  ⟨⟨0, 0, "", "", "", "", "", [], [], [], true, "partial", 0, 5, 0, 6, ""⟩⟩

/-- Priority of the task stored at index `i` of a heap list (the default
task if out of range).  Comparison of `EvaluationTask` values uses only
this field, mirroring the dataclass comparison tuple `(priority,)`. -/
def pAt (l : List EvaluationTask) (i : Nat) : Int :=
  (l.getD i default).priority

/-- CPython `heapq._siftdown(heap, startpos, pos)` with `newitem` already
read out of `heap[pos]`: walk up from `pos`, moving each parent larger
than `newitem` down, and drop `newitem` into the final slot. -/
def siftdownAux (heap : List EvaluationTask) (startpos pos : Nat)
    (newitem : EvaluationTask) : List EvaluationTask :=
  if h : startpos < pos then
    let parentpos := (pos - 1) / 2
    let parent := heap.getD parentpos default
    if newitem.priority < parent.priority then
      siftdownAux (heap.set pos parent) startpos parentpos newitem
    else
      heap.set pos newitem
  else
    heap.set pos newitem
termination_by pos
decreasing_by
  have hpos : 0 < pos := Nat.lt_of_le_of_lt (Nat.zero_le _) h
  omega

/-- CPython `heapq._siftup(heap, pos)` with `endpos` frozen at entry and
`newitem` already read out of `heap[pos]`: walk down from `pos`, moving
the smaller child up at each level (ties select the right child, because
the code tests `not heap[childpos] < heap[rightpos]`), then place
`newitem` at the leaf reached and bubble it up with `_siftdown`. -/
def siftupAux (heap : List EvaluationTask) (endpos startpos pos : Nat)
    (newitem : EvaluationTask) : List EvaluationTask :=
  if h : 2 * pos + 1 < endpos then
    let childpos := 2 * pos + 1
    let rightpos := childpos + 1
    let chosen :=
      if rightpos < endpos ∧
          ¬ (heap.getD childpos default).priority <
            (heap.getD rightpos default).priority then
        rightpos
      else
        childpos
    siftupAux (heap.set pos (heap.getD chosen default)) endpos startpos
      chosen newitem
  else
    siftdownAux (heap.set pos newitem) startpos pos newitem
termination_by endpos - pos
decreasing_by
  split <;> omega

/-- CPython `heapq.heappush`: append the item and sift it toward the
root.  `queue.PriorityQueue.put` delegates here. -/
def heappush (heap : List EvaluationTask) (item : EvaluationTask) :
    List EvaluationTask :=
  siftdownAux (heap ++ [item]) 0 heap.length item

/-- CPython `heapq.heappop`: pop the last slot, and if the heap is still
non-empty return the root after moving the popped element there and
sifting it down.  `queue.PriorityQueue.get` delegates here; the empty
case (where `get` would block) is `none`. -/
def heappop (heap : List EvaluationTask) :
    Option (EvaluationTask × List EvaluationTask) :=
  match heap with
  | [] => none
  | _ :: _ =>
    let lastelt := heap.getD (heap.length - 1) default
    let rest := heap.dropLast
    if rest.length = 0 then
      some (lastelt, rest)
    else
      some (rest.getD 0 default,
        siftupAux (rest.set 0 lastelt) rest.length 0 0 lastelt)

/-- The binary-heap invariant maintained by `heapq`: each stored task is
no smaller (by `priority`, the only compared field) than the task at its
parent index. -/
def heapInv (l : List EvaluationTask) : Prop :=
  ∀ i, i < l.length → 0 < i → pAt l ((i - 1) / 2) ≤ pAt l i

instance (l : List EvaluationTask) : Decidable (heapInv l) := by
  unfold heapInv
  infer_instance

/-- Banker rounding of a rational to an integer, the rounding Python
`round` applies to the scaled value: nearest integer, ties to even. -/
def round_half_even (q : ℚ) : ℤ :=
  if q - ⌊q⌋ < 1 / 2 then ⌊q⌋
  else if 1 / 2 < q - ⌊q⌋ then ⌊q⌋ + 1
  else if Even ⌊q⌋ then ⌊q⌋ else ⌊q⌋ + 1

/-- Python `round(q, 2)`: round to two decimal places, ties to even
(exact rational model of the float rounding in `utils.py`). -/
def round2 (q : ℚ) : ℚ :=
  (round_half_even (q * 100) : ℚ) / 100

/-- Dictionary lookup `negative_marking_config[section_type]` guarded by
`section_type in negative_marking_config` (an absent key, like the empty
falsy dict, yields `none`). -/
def lookup_section (cfg : List (String × SectionConfig))
    (section_type : String) : Option SectionConfig :=
  (cfg.find? (fun p => p.1 = section_type)).map Prod.snd

/-- The per-question result dict of `utils.evaluate_mcq_answer`,
restricted to its scoring fields. -/
structure McqEvalResult where
  question_id : Nat
  is_correct : Bool
  marks_total : ℚ
  marks_obtained : ℚ
  negative_marks_applied : ℚ
deriving DecidableEq

/-- The multi-select branch of `utils.evaluate_mcq_answer`, entered with
the candidate selections already parsed into a set (the function body
first normalises the submitted list or comma string into
`candidate_selections`).  Mirrors the source: exact match gives full
marks; otherwise `strict` mode gives zero and `partial` mode gives
`round(max(0, marks * (hits - misses) / |C|), 2)` when `hits > misses`;
a configured, enabled section penalty contributes
`mcq_negative_marks * misses` whenever `misses > 0`; an empty selection
is penalised only when `apply_to_unanswered` is set. -/
def evaluate_mcq_multi (question : Question)
    (candidate_selections : Finset Nat)
    (negative_marking_config : List (String × SectionConfig))
    (section_type : String)
    (multi_select_scoring_mode : String) : McqEvalResult :=
  let correct_set := question.correct_answers
  if candidate_selections ≠ ∅ then
    if candidate_selections = correct_set then
      { question_id := question.id, is_correct := true,
        marks_total := question.marks, marks_obtained := question.marks,
        negative_marks_applied := 0 }
    else
      let correct_selected := (candidate_selections ∩ correct_set).card
      let incorrect_selected := (candidate_selections \ correct_set).card
      let penalty :=
        if 0 < incorrect_selected then
          match lookup_section negative_marking_config section_type with
          | some sc =>
            if sc.enabled then sc.mcq_negative_marks * incorrect_selected
            else 0
          | none => 0
        else 0
      if multi_select_scoring_mode = "strict" then
        { question_id := question.id, is_correct := false,
          marks_total := question.marks, marks_obtained := 0,
          negative_marks_applied := penalty }
      else
        let marks_obtained :=
          if incorrect_selected < correct_selected then
            round2 (max 0 (question.marks *
              ((correct_selected : ℚ) - (incorrect_selected : ℚ)) /
              (correct_set.card : ℚ)))
          else 0
        { question_id := question.id, is_correct := false,
          marks_total := question.marks, marks_obtained := marks_obtained,
          negative_marks_applied := penalty }
  else
    let penalty :=
      match lookup_section negative_marking_config section_type with
      | some sc =>
        if sc.enabled ∧ sc.apply_to_unanswered then sc.mcq_negative_marks
        else 0
      | none => 0
    { question_id := question.id, is_correct := false,
      marks_total := question.marks, marks_obtained := 0,
      negative_marks_applied := penalty }

/-- The single-select branch of `utils.evaluate_mcq_answer`, entered
with the candidate answer already parsed (`none` when the submission is
empty or not a digit string). -/
def evaluate_mcq_single (question : Question)
    (candidate_answer : Option Nat)
    (negative_marking_config : List (String × SectionConfig))
    (section_type : String) : McqEvalResult :=
  match candidate_answer with
  | some selected =>
    if selected = question.correct_answer then
      { question_id := question.id, is_correct := true,
        marks_total := question.marks, marks_obtained := question.marks,
        negative_marks_applied := 0 }
    else
      let penalty :=
        match lookup_section negative_marking_config section_type with
        | some sc => if sc.enabled then sc.mcq_negative_marks else 0
        | none => 0
      { question_id := question.id, is_correct := false,
        marks_total := question.marks, marks_obtained := 0,
        negative_marks_applied := penalty }
  | none =>
    let penalty :=
      match lookup_section negative_marking_config section_type with
      | some sc =>
        if sc.enabled ∧ sc.apply_to_unanswered then sc.mcq_negative_marks
        else 0
      | none => 0
    { question_id := question.id, is_correct := false,
      marks_total := question.marks, marks_obtained := 0,
      negative_marks_applied := penalty }

/-- Constructor parameters of `EvaluationQueue` (all durations in
seconds, as rationals). -/
structure QueueConfig where
  requests_per_minute : ℚ
  retry_delay_base : ℚ
  max_retry_delay : ℚ
  max_retries : Nat
  long_retry_delay : ℚ
deriving DecidableEq

/-- The defaults of `EvaluationQueue.__init__`. -/
def default_config : QueueConfig :=
  { requests_per_minute := 10, retry_delay_base := 30,
    max_retry_delay := 300, max_retries := 5, long_retry_delay := 600 }

/-- Minimum spacing between dispatches:
`self._min_request_interval = 60.0 / requests_per_minute`. -/
def min_request_interval (cfg : QueueConfig) : ℚ :=
  60 / cfg.requests_per_minute

/-- The `EvaluationStatus` enum of `evaluation_queue.py`. -/
inductive EvaluationStatus where
  | pending
  | processing
  | completed
  | failed
  | partialResult
deriving DecidableEq

/-- String value of an `EvaluationStatus` member. -/
def status_value : EvaluationStatus → String
  | .pending => "pending"
  | .processing => "processing"
  | .completed => "completed"
  | .failed => "failed"
  | .partialResult => "partial"

/-- A `_progress` side-table entry.  Wall-clock timestamp fields
(`queued_at`, `started_at`, `completed_at`, `failed_at`, `next_retry_at`)
are represented by the scheduling delays recorded elsewhere; the
remaining keys written by the source are modelled as optional fields,
absent (`none`) until the corresponding dict key is first written. -/
structure ProgressRecord where
  status : String
  message : String
  position : Option Nat := none
  total_questions : Option Nat := none
  evaluated_questions : Option Nat := none
  retry_count : Option Nat := none
  max_retries : Option Nat := none
  long_retry_count : Option Nat := none
  max_long_retries : Option Nat := none
  next_retry_delay : Option ℚ := none
  error_summary : Option String := none
  can_view_results : Option Bool := none
deriving DecidableEq

instance : Inhabited ProgressRecord := ⟨{ status := "", message := "" }⟩

/-- A call the worker makes on the Durable Store (`self.db`). -/
inductive StoreOp where
  | updateResult (result_id : String)
  | markFailed (result_id : String) (error_message : String)
deriving DecidableEq

/-- Outcome of one dispatch attempt: `success` means the evaluation was
produced and `_save_evaluation_result` returned true; `failure` is any
exception raised in the try block (evaluation error or failed save),
carrying its message. -/
inductive EvalOutcome where
  | success
  | failure (msg : String)
deriving DecidableEq

/-- Everything `_process_task` does with one dequeued task: the final
mutated task object (for a re-queued task, the state it carries when the
timer pushes it back), the status-table entry at return, the progress
record after the branch updates it, the Durable Store calls issued, the
scheduled re-push (delay plus the task state that will be pushed), and
how many of the registered callbacks are invoked. -/
structure ProcessResult where
  task_after : EvaluationTask
  status_after : EvaluationStatus
  progress_after : ProgressRecord
  store_ops : List StoreOp
  requeue : Option (ℚ × EvaluationTask)
  complete_callbacks_invoked : Nat
  error_callbacks_invoked : Nat
deriving DecidableEq

/-- The retry cascade of `_process_task` (the `except` block): increment
`retry_count`; below `max_retries` schedule an exponential-backoff
re-push and mark the progress record `retrying`; otherwise increment
`long_retry_count` and either schedule a long-term re-push (the timer
resets `retry_count` to 0 and raises `priority` to 0 on the pushed
task) under `long_retry_pending`, or, past `max_long_retries`, mark the
task failed, call `mark_result_as_failed_evaluation` once and invoke
every registered error callback (each call wrapped in its own
try/except, so all `n_error` registered callbacks are invoked). -/
def process_failure (cfg : QueueConfig) (task0 : EvaluationTask)
    (msg : String) (progress0 : ProgressRecord) (n_error : Nat) :
    ProcessResult :=
  let task1 := { task0 with
    retry_count := task0.retry_count + 1,
    last_error := msg }
  if task1.retry_count < task1.max_retries then
    let delay := min (cfg.retry_delay_base * 2 ^ (task1.retry_count - 1))
      cfg.max_retry_delay
    { task_after := task1,
      status_after := .processing,
      progress_after := { progress0 with
        status := "retrying",
        retry_count := some task1.retry_count,
        max_retries := some task1.max_retries,
        next_retry_delay := some delay,
        message := "Evaluation temporarily delayed. Retrying soon." },
      store_ops := [],
      requeue := some (delay, task1),
      complete_callbacks_invoked := 0,
      error_callbacks_invoked := 0 }
  else
    let task2 := { task1 with long_retry_count := task1.long_retry_count + 1 }
    if task2.long_retry_count ≤ task2.max_long_retries then
      let requeued := { task2 with retry_count := 0, priority := 0 }
      { task_after := requeued,
        status_after := .processing,
        progress_after := { progress0 with
          status := "long_retry_pending",
          retry_count := some task2.retry_count,
          long_retry_count := some task2.long_retry_count,
          max_long_retries := some task2.max_long_retries,
          next_retry_delay := some cfg.long_retry_delay,
          message := "Evaluation service temporarily unavailable. Will retry later. Your answers are safe!" },
        store_ops := [],
        requeue := some (cfg.long_retry_delay, requeued),
        complete_callbacks_invoked := 0,
        error_callbacks_invoked := 0 }
    else
      let total_attempts := task2.max_retries * task2.max_long_retries
      { task_after := task2,
        status_after := .failed,
        progress_after := { progress0 with
          status := "failed",
          error_summary := some ("Evaluation failed after " ++
            toString total_attempts ++ " attempts. Manual review required."),
          message := "Automatic evaluation could not be completed. Your answers have been saved and will be reviewed manually by our team." },
        store_ops := [StoreOp.markFailed task2.result_id task2.last_error],
        requeue := none,
        complete_callbacks_invoked := 0,
        error_callbacks_invoked := n_error }

/-- `_process_task`: the pause check re-queues unchanged after 30
seconds; otherwise the status table is set to `PROCESSING` and dispatch
either completes (one `update_exam_result_with_evaluation` write, status
`COMPLETED`, every registered completion callback invoked) or enters the
retry cascade. -/
def process_task (cfg : QueueConfig) (task : EvaluationTask)
    (paused : Bool) (outcome : EvalOutcome)
    (status0 : EvaluationStatus) (progress0 : ProgressRecord)
    (n_complete n_error : Nat) : ProcessResult :=
  if paused then
    { task_after := task,
      status_after := status0,
      progress_after := { progress0 with
        status := "paused",
        message := "Evaluation is paused by admin. Your answers are safe and will be evaluated when resumed." },
      store_ops := [],
      requeue := some (30, task),
      complete_callbacks_invoked := 0,
      error_callbacks_invoked := 0 }
  else
    match outcome with
    | .success =>
      { task_after := task,
        status_after := .completed,
        progress_after := { progress0 with
          status := "completed",
          message := "Evaluation complete! You can now view your results.",
          can_view_results := some true },
        store_ops := [StoreOp.updateResult task.result_id],
        requeue := none,
        complete_callbacks_invoked := n_complete,
        error_callbacks_invoked := 0 }
    | .failure msg => process_failure cfg task msg progress0 n_error

/-- `any(q['type'] in ['short', 'essay'] for q in task.questions)`:
whether the task needs the AI (free-text) evaluation path. -/
def has_subjective (questions : List Question) : Bool :=
  questions.any (fun q => q.qtype = "short" || q.qtype = "essay")

/-- Rate-limiter sleep of `_worker_loop`: with `elapsed` seconds since
`_last_request_time`, sleep the remainder of `_min_request_interval`.
This runs before every `self._queue.get`, whatever the next task is. -/
def rate_limit_wait (cfg : QueueConfig)
    (last_request_time now : ℚ) : ℚ :=
  if now - last_request_time < min_request_interval cfg then
    min_request_interval cfg - (now - last_request_time)
  else 0

/-- Observable shape of one `_worker_loop` iteration that dequeues a
task: the rate-limiter sleep taken before the dequeue, whether dispatch
calls the external Evaluator (`exam_system.evaluate_exam`, chosen by
`has_subjective`) or the local `_evaluate_mcq_only` path, and the value
`_last_request_time` holds after the iteration (the code sets it to the
post-processing clock unconditionally). -/
structure WorkerIteration where
  rate_wait : ℚ
  evaluator_called : Bool
  last_request_time_after : ℚ
deriving DecidableEq

/-- One dequeue-and-dispatch iteration of `_worker_loop`, with `now` the
clock at the rate-limit check and `finish_time` the clock after
`_process_task` returns. -/
def worker_iteration (cfg : QueueConfig) (last_request_time now : ℚ)
    (task : EvaluationTask) (finish_time : ℚ) : WorkerIteration :=
  { rate_wait := rate_limit_wait cfg last_request_time now,
    evaluator_called := has_subjective task.questions,
    last_request_time_after := finish_time }

/-- Association-list read of a Python dict keyed by `result_id`. -/
def lookup_assoc {β : Type} (m : List (String × β)) (k : String) :
    Option β :=
  (m.find? (fun p => p.1 = k)).map Prod.snd

/-- Association-list write of a Python dict keyed by `result_id`:
replace the entry if the key is present, append otherwise. -/
def set_assoc {β : Type} (m : List (String × β)) (k : String) (v : β) :
    List (String × β) :=
  match m with
  | [] => [(k, v)]
  | (k0, v0) :: rest =>
    if k0 = k then (k, v) :: rest else (k0, v0) :: set_assoc rest k v

/-- In-memory state of an `EvaluationQueue`: the `PriorityQueue` heap
list, the `_status` table and the `_progress` table. -/
structure QueueState where
  queue : List EvaluationTask
  status : List (String × EvaluationStatus)
  progress : List (String × ProgressRecord)
deriving DecidableEq

/-- The state of a freshly constructed `EvaluationQueue`. -/
def initial_state : QueueState :=
  { queue := [], status := [], progress := [] }

/-- The keyword arguments of `EvaluationQueue.add_task`, with the
defaults of the source signature. -/
structure AddTaskArgs where
  result_id : String
  session_id : String
  exam_id : String
  candidate_name : String
  candidate_id : String
  answers : List (String × String)
  questions : List Question
  negative_marking_config : List (String × SectionConfig) := []
  show_feedback : Bool := true
  multi_select_scoring_mode : String := "partial"
  priority : Int := 1
deriving DecidableEq

/-- The task object `add_task` builds: counters start at the dataclass
defaults (`retry_count = 0`, `long_retry_count = 0`,
`max_long_retries = 6`), `max_retries` comes from the queue
configuration and `created_at` from `time.time()`. -/
def build_task (cfg : QueueConfig) (a : AddTaskArgs) (now : ℚ) :
    EvaluationTask :=
  { priority := a.priority,
    created_at := now,
    result_id := a.result_id,
    session_id := a.session_id,
    exam_id := a.exam_id,
    candidate_name := a.candidate_name,
    candidate_id := a.candidate_id,
    answers := a.answers,
    questions := a.questions,
    negative_marking_config := a.negative_marking_config,
    show_feedback := a.show_feedback,
    multi_select_scoring_mode := a.multi_select_scoring_mode,
    retry_count := 0,
    max_retries := cfg.max_retries,
    long_retry_count := 0,
    max_long_retries := 6,
    last_error := "" }

/-- `EvaluationQueue.add_task`: unconditionally build a task, push it on
the priority queue, and overwrite the status and progress entries for
`result_id`; returns `true` (the source returns `False` only when
building or enqueuing raises, which the model has no way to do). -/
def add_task (cfg : QueueConfig) (S : QueueState) (a : AddTaskArgs)
    (now : ℚ) : Bool × QueueState :=
  let task := build_task cfg a now
  let queue := heappush S.queue task
  (true,
    { queue := queue,
      status := set_assoc S.status a.result_id .pending,
      progress := set_assoc S.progress a.result_id
        { status := "pending",
          message := "Your exam is queued for evaluation. You can close this page and check back later.",
          position := some queue.length,
          total_questions := some a.questions.length,
          evaluated_questions := some 0 } })

/-- The dict returned by `EvaluationQueue.get_status`.  The source
builds a literal dict and then splats `**progress` over it, so when a
progress entry exists its `status` string (and its
`can_view_results` key, when present) override the computed ones. -/
structure StatusReport where
  result_id : String
  status : String
  queue_position : Nat
  queue_size : Nat
  is_complete : Bool
  can_view_results : Bool
deriving DecidableEq

/-- `EvaluationQueue.get_status`: a missing `_status` entry defaults to
`PENDING` and a missing `_progress` entry to the empty dict. -/
def get_status (S : QueueState) (result_id : String) : StatusReport :=
  let status := (lookup_assoc S.status result_id).getD .pending
  let progress := lookup_assoc S.progress result_id
  let queue_position :=
    if status = .pending then
      match progress with
      | some p => p.position.getD S.queue.length
      | none => S.queue.length
    else 0
  { result_id := result_id,
    status := match progress with
      | some p => p.status
      | none => status_value status,
    queue_position := queue_position,
    queue_size := S.queue.length,
    is_complete := status = .completed ∨ status = .failed,
    can_view_results := match progress with
      | some p => p.can_view_results.getD (status = .completed)
      | none => status = .completed }

/-- One row returned by
`db.get_pending_results_for_recovery()`.  The recovery query selects
identity, answers, questions and scoring configuration for every result
whose `evaluation_status` is `pending` or `processing`; the retry
counters the in-memory task had before the crash are not part of the
row, and are carried here as `persisted_*` fields only to state that
recovery ignores them. -/
structure RecoverySnapshot where
  result_id : String
  session_id : String
  exam_id : String
  candidate_name : String
  candidate_id : String
  answers : List (String × String)
  questions : List Question
  negative_marking_config : List (String × SectionConfig)
  show_feedback : Bool
  multi_select_scoring_mode : String
  persisted_retry_count : Nat
  persisted_long_retry_count : Nat
deriving DecidableEq

/-- The `add_task` keyword arguments `recover_pending_evaluations`
passes for one snapshot, with `priority=0`. -/
def snapshot_args (r : RecoverySnapshot) : AddTaskArgs :=
  { result_id := r.result_id,
    session_id := r.session_id,
    exam_id := r.exam_id,
    candidate_name := r.candidate_name,
    candidate_id := r.candidate_id,
    answers := r.answers,
    questions := r.questions,
    negative_marking_config := r.negative_marking_config,
    show_feedback := r.show_feedback,
    multi_select_scoring_mode := r.multi_select_scoring_mode,
    priority := 0 }

/-- Body of the recovery loop in `app.recover_pending_evaluations`: call
`add_task` for one snapshot and bump `recovered_count` when it returns
true. -/
def recover_step (cfg : QueueConfig) (now : ℚ) (acc : QueueState × Nat)
    (r : RecoverySnapshot) : QueueState × Nat :=
  let res := add_task cfg acc.1 (snapshot_args r) now
  (res.2, if res.1 then acc.2 + 1 else acc.2)

/-- `app.recover_pending_evaluations`: fold `add_task` with
`priority=0` over the recovered snapshots, counting the successful
re-enqueues. -/
def recover_pending_evaluations (cfg : QueueConfig)
    (snapshots : List RecoverySnapshot) (S : QueueState) (now : ℚ) :
    QueueState × Nat :=
  snapshots.foldl (recover_step cfg now) (S, 0)

/-- A task with the given scheduling fields, blank identity fields and
the dataclass counter defaults, used in concrete scheduling examples. -/
def mk_priority_task (p : Int) (c : ℚ) : EvaluationTask :=
  { priority := p, created_at := c, result_id := "", session_id := "",
    exam_id := "", candidate_name := "", candidate_id := "", answers := [],
    questions := [], negative_marking_config := [], show_feedback := true,
    multi_select_scoring_mode := "partial", retry_count := 0,
    max_retries := 5, long_retry_count := 0, max_long_retries := 6,
    last_error := "" }

/-- The multi-select question of the worked scoring example:
`correct_answers = [0, 2]`, `marks = 10`. -/
def sample_mcq_question : Question :=
  { id := 1, qtype := "mcq", question_text := "pick two",
    options := ["A", "B", "C", "D"], correct_answer := 0,
    correct_answers := {0, 2}, is_multi_select := true, marks := 10,
    section_type := "technical" }

/-- A negative-marking configuration with an enabled penalty of 1 mark
per wrong selection for the technical section. -/
def sample_penalty_config : List (String × SectionConfig) :=
  [("technical",
    { enabled := true, mcq_negative_marks := 1,
      apply_to_unanswered := false })]

/-- A task whose question list contains multiple-choice questions only
(no `short` or `essay` type). -/
def mcq_only_task : EvaluationTask :=
  { mk_priority_task 1 0 with questions := [sample_mcq_question] }

/-- A task that has already failed 4 consecutive short attempts under
`max_retries = 5`: its next failure escalates for the first time. -/
def escalation_example_task : EvaluationTask :=
  { mk_priority_task 1 0 with result_id := "res-esc", retry_count := 4 }

/-- A task out of both short retries and long cycles: its next failure
is permanent. -/
def exhausted_example_task : EvaluationTask :=
  { mk_priority_task 1 0 with
    result_id := "res-exh",
    retry_count := 4,
    long_retry_count := 6 }

/-- Arguments for a duplicate `add_task` call keyed by `result_id`
`"r1"`. -/
def dup_args : AddTaskArgs :=
  { result_id := "r1", session_id := "s1", exam_id := "e1",
    candidate_name := "A", candidate_id := "c1", answers := [],
    questions := [] }

/-- One observable operation the subsystem performs on a task during its
lifetime: a `_process_task` run (covering the pause re-queue, the
success path, short retry, long retry and permanent failure, each of
which yields the processed task state recorded in `task_after`). -/
inductive TaskStep (cfg : QueueConfig) : EvaluationTask → EvaluationTask → Prop where
  | process (t : EvaluationTask) (paused : Bool) (outcome : EvalOutcome)
      (s : EvaluationStatus) (p : ProgressRecord) (nc ne : Nat) :
      TaskStep cfg t (process_task cfg t paused outcome s p nc ne).task_after

theorem pAt_set_self {l : List EvaluationTask} {i : Nat}
    {v : EvaluationTask} (h : i < l.length) :
    pAt (l.set i v) i = v.priority := by
  unfold pAt
  rw [List.getD_eq_getElem _ _ (by simpa using h), List.getElem_set_self _]

theorem pAt_set_ne {l : List EvaluationTask} {i j : Nat}
    {v : EvaluationTask} (h : i ≠ j) :
    pAt (l.set i v) j = pAt l j := by
  unfold pAt
  rw [List.getD_eq_getElem?_getD, List.getD_eq_getElem?_getD,
    List.getElem?_set_ne h]

theorem pAt_append_lt {l : List EvaluationTask} {t : EvaluationTask}
    {i : Nat} (h : i < l.length) : pAt (l ++ [t]) i = pAt l i := by
  unfold pAt
  rw [List.getD_eq_getElem _ _ (by simp; omega), List.getD_eq_getElem _ _ h]
  exact congrArg _ (List.getElem_append_left h)

theorem pAt_dropLast {l : List EvaluationTask} {i : Nat}
    (h : i < l.length - 1) : pAt l.dropLast i = pAt l i := by
  unfold pAt
  have h1 : i < l.dropLast.length := by
    simp [List.length_dropLast]; omega
  rw [List.getD_eq_getElem _ _ h1, List.getD_eq_getElem _ _ (by omega)]
  exact congrArg _ (List.getElem_dropLast l i h1)

theorem taskGetD_mem {l : List EvaluationTask} {i : Nat}
    (h : i < l.length) : l.getD i default ∈ l := by
  rw [List.getD_eq_getElem _ _ h]
  exact List.getElem_mem h

/-- Pairs of the heap relation that do not touch index `pos` at either
end: the precondition threaded through the bubble-up pass. -/
def pairsOffPath (l : List EvaluationTask) (pos : Nat) : Prop :=
  ∀ i, i < l.length → 0 < i → i ≠ pos → (i - 1) / 2 ≠ pos →
    pAt l ((i - 1) / 2) ≤ pAt l i

/-- The pending item is already no larger than everything stored below
the hole at `pos`. -/
def childBound (l : List EvaluationTask) (pos : Nat)
    (x : EvaluationTask) : Prop :=
  ∀ i, i < l.length → 0 < i → (i - 1) / 2 = pos → x.priority ≤ pAt l i

/-- The parent of the hole at `pos` is already no larger than the
children of the hole. -/
def grandBound (l : List EvaluationTask) (pos : Nat) : Prop :=
  ∀ c, c < l.length → (c - 1) / 2 = pos → 0 < pos →
    pAt l ((pos - 1) / 2) ≤ pAt l c

/-- Pairs of the heap relation whose child end is not a child of `pos`:
the precondition threaded through the sift-down pass. -/
def pairsNotUnder (l : List EvaluationTask) (pos : Nat) : Prop :=
  ∀ i, i < l.length → 0 < i → (i - 1) / 2 ≠ pos →
    pAt l ((i - 1) / 2) ≤ pAt l i

theorem siftdownAux_length (sp : Nat) (x : EvaluationTask) :
    ∀ pos (l : List EvaluationTask),
    (siftdownAux l sp pos x).length = l.length := by
  intro pos
  induction pos using Nat.strong_induction_on with
  | _ pos ih =>
    intro l
    rw [siftdownAux]
    split
    · next h =>
      dsimp only
      split
      · next hlt =>
        rw [ih _ (by omega)]
        simp
      · simp
    · simp

theorem siftdownAux_mem (sp : Nat) (x : EvaluationTask) :
    ∀ pos (l : List EvaluationTask), pos < l.length →
    ∀ y ∈ siftdownAux l sp pos x, y ∈ l ∨ y = x := by
  intro pos
  induction pos using Nat.strong_induction_on with
  | _ pos ih =>
    intro l hlen y hy
    rw [siftdownAux] at hy
    split at hy
    · next h =>
      dsimp only at hy
      split at hy
      · next hlt =>
        have hpp : (pos - 1) / 2 < l.length := by omega
        rcases ih _ (by omega) _ (by simp only [List.length_set]; omega)
            y hy with h1 | h1
        · rcases List.mem_or_eq_of_mem_set h1 with h2 | h2
          · exact Or.inl h2
          · exact Or.inl (h2 ▸ taskGetD_mem hpp)
        · exact Or.inr h1
      · rcases List.mem_or_eq_of_mem_set hy with h1 | h1
        · exact Or.inl h1
        · exact Or.inr h1
    · rcases List.mem_or_eq_of_mem_set hy with h1 | h1
      · exact Or.inl h1
      · exact Or.inr h1

theorem siftupAux_length (sp : Nat) (x : EvaluationTask) :
    ∀ n endpos pos (l : List EvaluationTask), endpos - pos ≤ n →
    (siftupAux l endpos sp pos x).length = l.length := by
  intro n
  induction n with
  | zero =>
    intro endpos pos l hn
    rw [siftupAux]
    split
    · omega
    · rw [siftdownAux_length]
      simp
  | succ n ih =>
    intro endpos pos l hn
    rw [siftupAux]
    split
    · next h =>
      dsimp only
      rw [ih]
      · simp
      · split <;> omega
    · rw [siftdownAux_length]
      simp

theorem siftupAux_mem (sp : Nat) (x : EvaluationTask) :
    ∀ n endpos pos (l : List EvaluationTask), endpos - pos ≤ n →
    endpos = l.length → pos < l.length →
    ∀ y ∈ siftupAux l endpos sp pos x, y ∈ l ∨ y = x := by
  intro n
  induction n with
  | zero =>
    intro endpos pos l hn hend hpos
    omega
  | succ n ih =>
    intro endpos pos l hn hend hpos y hy
    rw [siftupAux] at hy
    split at hy
    · next h =>
      dsimp only at hy
      set chosen := if 2 * pos + 1 + 1 < endpos ∧
          ¬ (l.getD (2 * pos + 1) default).priority <
            (l.getD (2 * pos + 1 + 1) default).priority then
          2 * pos + 1 + 1
        else 2 * pos + 1 with hch
      have hchlt : chosen < l.length := by
        rw [hch]; split <;> omega
      rcases ih endpos chosen _ (by rw [hch]; split <;> omega)
          (by simpa using hend) (by simpa using hchlt) y hy with h1 | h1
      · rcases List.mem_or_eq_of_mem_set h1 with h2 | h2
        · exact Or.inl h2
        · exact Or.inl (h2 ▸ taskGetD_mem hchlt)
      · exact Or.inr h1
    · rcases siftdownAux_mem sp x pos _ (by simpa using hpos) y hy with h1 | h1
      · rcases List.mem_or_eq_of_mem_set h1 with h2 | h2
        · exact Or.inl h2
        · exact Or.inr h2
      · exact Or.inr h1

theorem heappush_length (l : List EvaluationTask) (t : EvaluationTask) :
    (heappush l t).length = l.length + 1 := by
  unfold heappush
  rw [siftdownAux_length]
  simp

theorem heappush_mem (l : List EvaluationTask) (t : EvaluationTask) :
    ∀ y ∈ heappush l t, y ∈ l ∨ y = t := by
  intro y hy
  rcases siftdownAux_mem 0 t l.length (l ++ [t]) (by simp) y hy with h1 | h1
  · rcases List.mem_append.mp h1 with h2 | h2
    · exact Or.inl h2
    · exact Or.inr (by simpa using h2)
  · exact Or.inr h1

theorem pAt_zero_min {l : List EvaluationTask} (hInv : heapInv l) :
    ∀ i, i < l.length → pAt l 0 ≤ pAt l i := by
  intro i
  induction i using Nat.strong_induction_on with
  | _ i ih =>
    intro hi
    rcases Nat.eq_zero_or_pos i with h0 | h0
    · subst h0; exact le_refl _
    · exact le_trans (ih ((i - 1) / 2) (by omega) (by omega)) (hInv i hi h0)

theorem heapInv_siftdownAux (x : EvaluationTask) :
    ∀ pos (l : List EvaluationTask), pos < l.length →
    pairsOffPath l pos → childBound l pos x → grandBound l pos →
    heapInv (siftdownAux l 0 pos x) := by
  intro pos
  induction pos using Nat.strong_induction_on with
  | _ pos ih =>
    intro l hlen hP1 hP2 hP3
    rw [siftdownAux]
    split
    · next hpos =>
      dsimp only
      split
      · next hlt =>
        apply ih ((pos - 1) / 2) (by omega)
        · simp only [List.length_set]; omega
        · intro i hi h0 hne hparne
          simp only [List.length_set] at hi
          by_cases hipos : i = pos
          · exact absurd (by rw [hipos]) hparne
          · by_cases hpipos : (i - 1) / 2 = pos
            · rw [hpipos, pAt_set_self hlen, pAt_set_ne (by omega)]
              exact hP3 i hi hpipos hpos
            · rw [pAt_set_ne (by omega), pAt_set_ne (by omega)]
              exact hP1 i hi h0 hipos hpipos
        · intro i hi h0 hpar
          simp only [List.length_set] at hi
          by_cases hipos : i = pos
          · subst hipos
            rw [pAt_set_self hlen]
            exact le_of_lt hlt
          · rw [pAt_set_ne (by omega)]
            have h1 : pAt l ((i - 1) / 2) ≤ pAt l i :=
              hP1 i hi h0 hipos (by omega)
            rw [hpar] at h1
            exact le_trans (le_of_lt hlt) h1
        · intro c hc hpar h0pp
          simp only [List.length_set] at hc
          rw [pAt_set_ne (by omega)]
          by_cases hcpos : c = pos
          · subst hcpos
            rw [pAt_set_self hlen]
            exact hP1 _ (by omega) h0pp (by omega) (by omega)
          · rw [pAt_set_ne (by omega)]
            have h1 : pAt l (((pos - 1) / 2 - 1) / 2) ≤ pAt l ((pos - 1) / 2) :=
              hP1 _ (by omega) h0pp (by omega) (by omega)
            have h2 : pAt l ((c - 1) / 2) ≤ pAt l c :=
              hP1 c hc (by omega) hcpos (by omega)
            rw [hpar] at h2
            exact le_trans h1 h2
      · next hge =>
        intro i hi h0
        simp only [List.length_set] at hi
        by_cases hipos : i = pos
        · subst hipos
          rw [pAt_set_self hlen, pAt_set_ne (by omega)]
          exact not_lt.mp hge
        · by_cases hpipos : (i - 1) / 2 = pos
          · rw [hpipos, pAt_set_self hlen, pAt_set_ne (by omega)]
            exact hP2 i hi h0 hpipos
          · rw [pAt_set_ne (by omega), pAt_set_ne (by omega)]
            exact hP1 i hi h0 hipos hpipos
    · next hnpos =>
      have hp0 : pos = 0 := by omega
      subst hp0
      intro i hi h0
      simp only [List.length_set] at hi
      by_cases hpipos : (i - 1) / 2 = 0
      · rw [hpipos, pAt_set_self hlen, pAt_set_ne (by omega)]
        exact hP2 i hi h0 hpipos
      · rw [pAt_set_ne (by omega), pAt_set_ne (by omega)]
        exact hP1 i hi h0 (by omega) hpipos

theorem heapInv_siftupAux (x : EvaluationTask) :
    ∀ n endpos pos (l : List EvaluationTask), endpos - pos ≤ n →
    endpos = l.length → pos < l.length →
    pairsNotUnder l pos → grandBound l pos →
    heapInv (siftupAux l endpos 0 pos x) := by
  intro n
  induction n with
  | zero =>
    intro endpos pos l hn hend hpos _ _
    omega
  | succ n ih =>
    intro endpos pos l hn hend hpos hQ1 hQ2
    rw [siftupAux]
    split
    · next h =>
      dsimp only
      by_cases hc : 2 * pos + 1 + 1 < endpos ∧
          ¬ (l.getD (2 * pos + 1) default).priority <
            (l.getD (2 * pos + 1 + 1) default).priority
      · rw [if_pos hc]
        apply ih endpos (2 * pos + 1 + 1) _ (by omega)
          (by simp [hend]) (by simp; omega)
        · intro i hi h0 hpar
          simp only [List.length_set] at hi
          by_cases hipos : i = pos
          · subst hipos
            rw [pAt_set_self hpos, pAt_set_ne (by omega)]
            exact hQ2 _ (by omega) (by omega) h0
          · by_cases hpi : (i - 1) / 2 = pos
            · by_cases hich : i = 2 * pos + 1 + 1
              · rw [hpi, pAt_set_self hpos, pAt_set_ne (by omega), hich]
                exact le_refl _
              · have hileft : i = 2 * pos + 1 := by omega
                rw [hpi, pAt_set_self hpos, pAt_set_ne (by omega), hileft]
                exact not_lt.mp hc.2
            · rw [pAt_set_ne (by omega), pAt_set_ne (by omega)]
              exact hQ1 i hi h0 hpi
        · intro c hc2 hpar h0ch
          simp only [List.length_set] at hc2
          have hpc : (2 * pos + 1 + 1 - 1) / 2 = pos := by omega
          rw [hpc, pAt_set_self hpos, pAt_set_ne (by omega)]
          have h1 := hQ1 c hc2 (by omega) (by omega)
          rw [hpar] at h1
          exact h1
      · rw [if_neg hc]
        apply ih endpos (2 * pos + 1) _ (by omega)
          (by simp [hend]) (by simp; omega)
        · intro i hi h0 hpar
          simp only [List.length_set] at hi
          by_cases hipos : i = pos
          · subst hipos
            rw [pAt_set_self hpos, pAt_set_ne (by omega)]
            exact hQ2 _ (by omega) (by omega) h0
          · by_cases hpi : (i - 1) / 2 = pos
            · by_cases hich : i = 2 * pos + 1
              · rw [hpi, pAt_set_self hpos, pAt_set_ne (by omega), hich]
                exact le_refl _
              · have hiright : i = 2 * pos + 1 + 1 := by omega
                have hB : (l.getD (2 * pos + 1) default).priority <
                    (l.getD (2 * pos + 1 + 1) default).priority := by
                  push_neg at hc
                  exact hc (by omega)
                rw [hpi, pAt_set_self hpos, pAt_set_ne (by omega), hiright]
                exact le_of_lt hB
            · rw [pAt_set_ne (by omega), pAt_set_ne (by omega)]
              exact hQ1 i hi h0 hpi
        · intro c hc2 hpar h0ch
          simp only [List.length_set] at hc2
          have hpc : (2 * pos + 1 - 1) / 2 = pos := by omega
          rw [hpc, pAt_set_self hpos, pAt_set_ne (by omega)]
          have h1 := hQ1 c hc2 (by omega) (by omega)
          rw [hpar] at h1
          exact h1
    · next h =>
      apply heapInv_siftdownAux x pos
      · simp only [List.length_set]
        exact hpos
      · intro i hi h0 hne hparne
        simp only [List.length_set] at hi
        rw [pAt_set_ne (by omega), pAt_set_ne (by omega)]
        exact hQ1 i hi h0 hparne
      · intro i hi h0 hpar
        simp only [List.length_set] at hi
        exfalso
        omega
      · intro c hc2 hpar h0pp
        simp only [List.length_set] at hc2
        exfalso
        omega

theorem heapInv_nil : heapInv [] := by
  intro i hi h0
  simp at hi

theorem heapInv_heappush {l : List EvaluationTask} (t : EvaluationTask)
    (h : heapInv l) : heapInv (heappush l t) := by
  unfold heappush
  apply heapInv_siftdownAux t l.length (l ++ [t]) (by simp)
  · intro i hi h0 hne hparne
    simp only [List.length_append, List.length_singleton] at hi
    have hil : i < l.length := by omega
    rw [pAt_append_lt hil, pAt_append_lt (by omega)]
    exact h i hil h0
  · intro i hi h0 hpar
    simp only [List.length_append, List.length_singleton] at hi
    exfalso
    omega
  · intro c hc hpar h0
    simp only [List.length_append, List.length_singleton] at hc
    exfalso
    omega

theorem heappop_spec {l : List EvaluationTask} {t : EvaluationTask}
    {l' : List EvaluationTask} (hInv : heapInv l)
    (h : heappop l = some (t, l')) :
    heapInv l' ∧ l'.length = l.length - 1 ∧ t ∈ l ∧
      ∀ y ∈ l, t.priority ≤ y.priority := by
  match l with
  | [] => simp [heappop] at h
  | a :: rest0 =>
    simp only [heappop] at h
    split at h
    · next hz =>
      have hlen1 : (a :: rest0).length = 1 := by
        have := List.length_dropLast (a :: rest0)
        simp only [List.length_cons] at this ⊢
        rw [List.length_dropLast] at hz
        simp only [List.length_cons] at hz
        omega
      have hrest : rest0 = [] := by
        simp only [List.length_cons] at hlen1
        exact List.eq_nil_of_length_eq_zero (by omega)
      subst hrest
      have h' := Option.some.inj h
      cases h'
      refine ⟨heapInv_nil, by simp, by simp, ?_⟩
      intro y hy
      simp only [List.mem_singleton] at hy
      subst hy
      exact le_refl _
    · next hz =>
      have h' := Option.some.inj h
      cases h'
      have hlen2 : 2 ≤ (a :: rest0).length := by
        rw [List.length_dropLast] at hz
        simp only [List.length_cons] at hz ⊢
        omega
      have hmin : ∀ y ∈ a :: rest0,
          ((a :: rest0).dropLast.getD 0 default).priority ≤ y.priority := by
        intro y hy
        obtain ⟨i, hi, rfl⟩ := List.getElem_of_mem hy
        have h0 : pAt ((a :: rest0).dropLast) 0 = pAt (a :: rest0) 0 :=
          pAt_dropLast (by omega)
        have h1 : pAt (a :: rest0) 0 ≤ pAt (a :: rest0) i :=
          pAt_zero_min hInv i hi
        have h2 : pAt (a :: rest0) i = (a :: rest0)[i].priority := by
          unfold pAt
          rw [List.getD_eq_getElem _ _ hi]
        calc ((a :: rest0).dropLast.getD 0 default).priority
            = pAt (a :: rest0) 0 := h0
          _ ≤ pAt (a :: rest0) i := h1
          _ = (a :: rest0)[i].priority := h2
      refine ⟨?_, ?_, ?_, hmin⟩
      · apply heapInv_siftupAux _ ((a :: rest0).dropLast.length)
        · exact Nat.sub_le _ _
        · simp
        · simp only [List.length_set]
          omega
        · intro i hi h0 hpar
          simp only [List.length_set] at hi
          rw [pAt_set_ne (by omega), pAt_set_ne (by omega)]
          rw [List.length_dropLast] at hi
          rw [pAt_dropLast (by omega), pAt_dropLast (by omega)]
          exact hInv i (by omega) h0
        · intro c hc hpar h0
          exact absurd h0 (lt_irrefl 0)
      · rw [siftupAux_length _ _ ((a :: rest0).dropLast.length - 0) _ _ _
          (le_refl _)]
        simp
      · have : (a :: rest0).dropLast.getD 0 default ∈ (a :: rest0).dropLast := by
          apply taskGetD_mem
          rw [List.length_dropLast]
          simp only [List.length_cons] at hlen2 ⊢
          omega
        exact List.dropLast_subset _ this

theorem getD_set_ne {α : Type} (l : List α) (i j : Nat) (v d : α)
    (h : i ≠ j) : (l.set i v).getD j d = l.getD j d := by
  rw [List.getD_eq_getElem?_getD, List.getD_eq_getElem?_getD,
    List.getElem?_set_ne h]

theorem set_concat_length {α : Type} (x t : α) :
    ∀ l : List α, (l ++ [t]).set l.length x = l ++ [x] := by
  intro l
  induction l with
  | nil => rfl
  | cons a as ih =>
    simp only [List.cons_append, List.length_cons, List.set_cons_succ]
    rw [ih]

theorem set_getD_self {α : Type} (d : α) :
    ∀ (l : List α) (j : Nat), j < l.length → l.set j (l.getD j d) = l := by
  intro l
  induction l with
  | nil =>
    intro j hj
    simp at hj
  | cons a as ih =>
    intro j hj
    cases j with
    | zero => rfl
    | succ n =>
      have hget : (a :: as).getD (n + 1) d = as.getD n d := by
        simp [List.getD]
      rw [hget, List.set_cons_succ, ih n (by simpa using hj)]

theorem set_set_perm_lt {α : Type} (a b : α) :
    ∀ (l : List α) (i j : Nat), i < j → j < l.length →
    ((l.set i a).set j b).Perm ((l.set i b).set j a) := by
  intro l
  induction l with
  | nil =>
    intro i j hij hj
    simp at hj
  | cons x t ih =>
    intro i j hij hj
    cases i with
    | zero =>
      cases j with
      | zero => omega
      | succ m =>
        simp only [List.set_cons_zero, List.set_cons_succ]
        have hm : m < t.length := by simpa using hj
        rw [List.set_eq_take_cons_drop b hm, List.set_eq_take_cons_drop a hm]
        have step1 : (a :: (t.take m ++ b :: t.drop (m + 1))).Perm
            (a :: b :: (t.take m ++ t.drop (m + 1))) :=
          List.Perm.cons a List.perm_middle
        have step2 : (a :: b :: (t.take m ++ t.drop (m + 1))).Perm
            (b :: a :: (t.take m ++ t.drop (m + 1))) :=
          List.Perm.swap b a _
        have step3 : (b :: a :: (t.take m ++ t.drop (m + 1))).Perm
            (b :: (t.take m ++ a :: t.drop (m + 1))) :=
          List.Perm.cons b List.perm_middle.symm
        exact (step1.trans step2).trans step3
    | succ n =>
      cases j with
      | zero => omega
      | succ m =>
        simp only [List.set_cons_succ]
        exact List.Perm.cons x (ih n m (by omega) (by simpa using hj))

theorem set_set_perm {α : Type} (a b : α) (l : List α) (i j : Nat)
    (hij : i ≠ j) (hi : i < l.length) (hj : j < l.length) :
    ((l.set i a).set j b).Perm ((l.set i b).set j a) := by
  rcases Nat.lt_or_ge i j with h | h
  · exact set_set_perm_lt a b l i j h hj
  · have h2 : j < i := by omega
    rw [List.set_comm a b l hij, List.set_comm b a l hij]
    exact set_set_perm_lt b a l j i h2 hi

theorem set_getD_set_perm {α : Type} [Inhabited α] (l : List α)
    (i j : Nat) (x : α) (hij : i ≠ j) (hi : i < l.length)
    (hj : j < l.length) :
    ((l.set i (l.getD j default)).set j x).Perm (l.set i x) := by
  have h1 := set_set_perm (l.getD j default) x l i j hij hi hj
  have h2 := set_getD_self default (l.set i x) j (by simpa using hj)
  rw [getD_set_ne l i j x default hij] at h2
  exact h2 ▸ h1

theorem siftdownAux_perm (sp : Nat) (x : EvaluationTask) :
    ∀ pos (l : List EvaluationTask), pos < l.length →
    (siftdownAux l sp pos x).Perm (l.set pos x) := by
  intro pos
  induction pos using Nat.strong_induction_on with
  | _ pos ih =>
    intro l hlen
    rw [siftdownAux]
    split
    · next h =>
      dsimp only
      split
      · next hlt =>
        have hp := ih ((pos - 1) / 2) (by omega)
          (l.set pos (l.getD ((pos - 1) / 2) default))
          (by simp only [List.length_set]; omega)
        exact hp.trans (set_getD_set_perm l pos ((pos - 1) / 2) x
          (by omega) hlen (by omega))
      · exact List.Perm.refl _
    · exact List.Perm.refl _

theorem siftupAux_perm (sp : Nat) (x : EvaluationTask) :
    ∀ n endpos pos (l : List EvaluationTask), endpos - pos ≤ n →
    endpos = l.length → pos < l.length →
    (siftupAux l endpos sp pos x).Perm (l.set pos x) := by
  intro n
  induction n with
  | zero =>
    intro endpos pos l hn hend hpos
    omega
  | succ n ih =>
    intro endpos pos l hn hend hpos
    rw [siftupAux]
    split
    · next h =>
      dsimp only
      set chosen := if 2 * pos + 1 + 1 < endpos ∧
          ¬ (l.getD (2 * pos + 1) default).priority <
            (l.getD (2 * pos + 1 + 1) default).priority then
          2 * pos + 1 + 1
        else 2 * pos + 1 with hch
      have hchlt : chosen < l.length := by
        rw [hch]; split <;> omega
      have hchgt : pos < chosen := by
        rw [hch]; split <;> omega
      have hp := ih endpos chosen (l.set pos (l.getD chosen default))
        (by omega) (by simp [hend]) (by simp only [List.length_set]; omega)
      exact hp.trans (set_getD_set_perm l pos chosen x (by omega) hpos hchlt)
    · next h =>
      have hp := siftdownAux_perm sp x pos (l.set pos x)
        (by simp only [List.length_set]; exact hpos)
      rw [List.set_set] at hp
      exact hp

theorem heappush_perm (l : List EvaluationTask) (t : EvaluationTask) :
    (heappush l t).Perm (l ++ [t]) := by
  unfold heappush
  have hp := siftdownAux_perm 0 t l.length (l ++ [t]) (by simp)
  rw [set_concat_length] at hp
  exact hp

theorem siftdownAux_eq_stop (l : List EvaluationTask) (sp pos : Nat)
    (x : EvaluationTask) (h : ¬ sp < pos) :
    siftdownAux l sp pos x = l.set pos x := by
  rw [siftdownAux, dif_neg h]

theorem siftdownAux_eq_step_lt (l : List EvaluationTask) (sp pos : Nat)
    (x : EvaluationTask) (h : sp < pos)
    (h2 : x.priority < (l.getD ((pos - 1) / 2) default).priority) :
    siftdownAux l sp pos x =
      siftdownAux (l.set pos (l.getD ((pos - 1) / 2) default)) sp
        ((pos - 1) / 2) x := by
  rw [siftdownAux, dif_pos h]
  dsimp only
  rw [if_pos h2]

theorem siftdownAux_eq_step_ge (l : List EvaluationTask) (sp pos : Nat)
    (x : EvaluationTask) (h : sp < pos)
    (h2 : ¬ x.priority < (l.getD ((pos - 1) / 2) default).priority) :
    siftdownAux l sp pos x = l.set pos x := by
  rw [siftdownAux, dif_pos h]
  dsimp only
  rw [if_neg h2]

theorem siftupAux_eq_leaf (l : List EvaluationTask) (endpos sp pos : Nat)
    (x : EvaluationTask) (h : ¬ 2 * pos + 1 < endpos) :
    siftupAux l endpos sp pos x = siftdownAux (l.set pos x) sp pos x := by
  rw [siftupAux, dif_neg h]

theorem siftupAux_eq_step (l : List EvaluationTask) (endpos sp pos : Nat)
    (x : EvaluationTask) (h : 2 * pos + 1 < endpos) :
    siftupAux l endpos sp pos x =
      siftupAux
        (l.set pos (l.getD
          (if 2 * pos + 1 + 1 < endpos ∧
              ¬ (l.getD (2 * pos + 1) default).priority <
                (l.getD (2 * pos + 1 + 1) default).priority then
            2 * pos + 1 + 1
          else 2 * pos + 1) default))
        endpos sp
        (if 2 * pos + 1 + 1 < endpos ∧
            ¬ (l.getD (2 * pos + 1) default).priority <
              (l.getD (2 * pos + 1 + 1) default).priority then
          2 * pos + 1 + 1
        else 2 * pos + 1) x := by
  rw [siftupAux, dif_pos h]

/-- C1: when a failed attempt brings `retry_count` up to `max_retries`
and the incremented `long_retry_count` is still within
`max_long_retries`, `_process_task` marks the Progress Record
`long_retry_pending` carrying the incremented `long_retry_count`, and
the task it schedules for re-push after `long_retry_delay` has
`retry_count` reset to 0 and `priority` elevated to 0. -/
theorem long_retry_escalation (cfg : QueueConfig) (t : EvaluationTask)
    (msg : String) (s : EvaluationStatus) (p : ProgressRecord)
    (nc ne : Nat) (hmax : t.max_retries ≤ t.retry_count + 1)
    (hlong : t.long_retry_count + 1 ≤ t.max_long_retries) :
    (process_task cfg t false (.failure msg) s p nc ne).progress_after.status
        = "long_retry_pending" ∧
    (process_task cfg t false (.failure msg) s p nc
        ne).progress_after.long_retry_count = some (t.long_retry_count + 1) ∧
    (process_task cfg t false (.failure msg) s p nc
        ne).task_after.long_retry_count = t.long_retry_count + 1 ∧
    (process_task cfg t false (.failure msg) s p nc
        ne).task_after.retry_count = 0 ∧
    (process_task cfg t false (.failure msg) s p nc
        ne).task_after.priority = 0 ∧
    (process_task cfg t false (.failure msg) s p nc ne).requeue =
      some (cfg.long_retry_delay,
        (process_task cfg t false (.failure msg) s p nc ne).task_after) := by
  have h1 : ¬ (t.retry_count + 1 < t.max_retries) := by omega
  simp [process_task, process_failure, h1, hlong]

/-- C1 witness: the first escalation of a task that has failed
`max_retries = 5` consecutive attempts yields `long_retry_count = 1`,
`retry_count = 0` and priority 0. -/
theorem long_retry_escalation_witness :
    (process_task default_config escalation_example_task false
        (.failure "boom") .processing { status := "processing", message := "" }
        0 0).progress_after.long_retry_count = some 1 ∧
    (process_task default_config escalation_example_task false
        (.failure "boom") .processing { status := "processing", message := "" }
        0 0).task_after.retry_count = 0 ∧
    (process_task default_config escalation_example_task false
        (.failure "boom") .processing { status := "processing", message := "" }
        0 0).task_after.priority = 0 := by
  have h := long_retry_escalation default_config escalation_example_task
    "boom" .processing { status := "processing", message := "" } 0 0
    (by decide) (by decide)
  exact ⟨h.2.1, h.2.2.2.1, h.2.2.2.2.1⟩

/-- C2: a failed attempt whose incremented `retry_count` is still below
`max_retries` marks the Progress Record `retrying` and schedules a
re-push after `min(retry_delay_base * 2 ^ (retry_count - 1),
max_retry_delay)`; with base 2 and cap 10 the delays for
`retry_count = 1, 2, 3, 4` are exactly 2, 4, 8, 10. -/
theorem short_retry_backoff (cfg : QueueConfig) (t : EvaluationTask)
    (msg : String) (s : EvaluationStatus) (p : ProgressRecord)
    (nc ne : Nat) (h : t.retry_count + 1 < t.max_retries) :
    (process_task cfg t false (.failure msg) s p nc ne).progress_after.status
        = "retrying" ∧
    (process_task cfg t false (.failure msg) s p nc
        ne).progress_after.retry_count = some (t.retry_count + 1) ∧
    (process_task cfg t false (.failure msg) s p nc ne).requeue =
      some (min (cfg.retry_delay_base * 2 ^ (t.retry_count + 1 - 1))
          cfg.max_retry_delay,
        (process_task cfg t false (.failure msg) s p nc ne).task_after) ∧
    ([1, 2, 3, 4].map (fun k : Nat => min ((2 : ℚ) * 2 ^ (k - 1)) 10))
      = ([2, 4, 8, 10] : List ℚ) := by
  refine ⟨?_, ?_, ?_, by norm_num [min_def]⟩ <;>
    simp [process_task, process_failure, h]

/-- C2 witness: the first failure of a fresh task is re-scheduled as
`retrying` after `min(base * 2 ^ 0, cap)` seconds. -/
theorem short_retry_backoff_witness :
    (process_task default_config (mk_priority_task 1 0) false
        (.failure "boom") .processing { status := "processing", message := "" }
        0 0).progress_after.status = "retrying" ∧
    (process_task default_config (mk_priority_task 1 0) false
        (.failure "boom") .processing { status := "processing", message := "" }
        0 0).progress_after.retry_count = some 1 := by
  have h := short_retry_backoff default_config (mk_priority_task 1 0)
    "boom" .processing { status := "processing", message := "" } 0 0
    (by decide)
  exact ⟨h.1, h.2.1⟩

/-- C3: a failure that pushes `long_retry_count` past `max_long_retries`
puts the task in the terminal `FAILED` status, issues exactly one
`mark_result_as_failed_evaluation` call for its `result_id`, writes the
`failed` progress record with the total-attempts summary, invokes all
`ne` registered error callbacks, and schedules no re-push. -/
theorem permanent_failure_marks_failed (cfg : QueueConfig)
    (t : EvaluationTask) (msg : String) (s : EvaluationStatus)
    (p : ProgressRecord) (nc ne : Nat)
    (hmax : t.max_retries ≤ t.retry_count + 1)
    (hlong : t.max_long_retries < t.long_retry_count + 1) :
    (process_task cfg t false (.failure msg) s p nc ne).status_after
        = .failed ∧
    (process_task cfg t false (.failure msg) s p nc ne).store_ops =
      [StoreOp.markFailed t.result_id msg] ∧
    (process_task cfg t false (.failure msg) s p nc
        ne).progress_after.status = "failed" ∧
    (process_task cfg t false (.failure msg) s p nc
        ne).progress_after.error_summary =
      some ("Evaluation failed after " ++
        toString (t.max_retries * t.max_long_retries) ++
        " attempts. Manual review required.") ∧
    (process_task cfg t false (.failure msg) s p nc
        ne).error_callbacks_invoked = ne ∧
    (process_task cfg t false (.failure msg) s p nc ne).requeue = none := by
  have h1 : ¬ (t.retry_count + 1 < t.max_retries) := by omega
  have h2 : ¬ (t.long_retry_count + 1 ≤ t.max_long_retries) := by omega
  simp [process_task, process_failure, h1, h2]

/-- C3 witness: a task that exhausted 5 short retries and 6 long cycles
fails permanently with one mark-failed store call. -/
theorem permanent_failure_marks_failed_witness :
    (process_task default_config exhausted_example_task false
        (.failure "down") .processing { status := "processing", message := "" }
        0 2).status_after = .failed ∧
    (process_task default_config exhausted_example_task false
        (.failure "down") .processing { status := "processing", message := "" }
        0 2).store_ops = [StoreOp.markFailed "res-exh" "down"] ∧
    (process_task default_config exhausted_example_task false
        (.failure "down") .processing { status := "processing", message := "" }
        0 2).error_callbacks_invoked = 2 ∧
    (process_task default_config exhausted_example_task false
        (.failure "down") .processing { status := "processing", message := "" }
        0 2).requeue = none := by
  have h := permanent_failure_marks_failed default_config
    exhausted_example_task "down" .processing
    { status := "processing", message := "" } 0 2 (by decide) (by decide)
  exact ⟨h.1, h.2.1, h.2.2.2.2.1, h.2.2.2.2.2⟩

theorem task_step_long_retry_mono {cfg : QueueConfig}
    {t t' : EvaluationTask} (h : TaskStep cfg t t') :
    t.long_retry_count ≤ t'.long_retry_count := by
  cases h with
  | process paused outcome s p nc ne =>
    cases paused
    · cases outcome with
      | success => simp [process_task]
      | failure msg =>
        by_cases h1 : t.retry_count + 1 < t.max_retries
        · simp [process_task, process_failure, h1]
        · by_cases h2 : t.long_retry_count + 1 ≤ t.max_long_retries
          · simp [process_task, process_failure, h1, h2]
          · simp [process_task, process_failure, h1, h2]
    · simp [process_task]

/-- C9: along any sequence of operations the subsystem performs on a
task, `long_retry_count` never decreases (in particular it is never
reset), and whenever a long-retry cycle is triggered (short retries
exhausted, escalation ceiling not yet hit) the processed task has
`retry_count` reset to 0. -/
theorem retry_counter_invariant (cfg : QueueConfig) :
    (∀ t t', Relation.ReflTransGen (TaskStep cfg) t t' →
      t.long_retry_count ≤ t'.long_retry_count) ∧
    (∀ (t : EvaluationTask) (msg : String) (s : EvaluationStatus)
      (p : ProgressRecord) (nc ne : Nat),
      t.max_retries ≤ t.retry_count + 1 →
      t.long_retry_count + 1 ≤ t.max_long_retries →
      (process_task cfg t false (.failure msg) s p nc
        ne).task_after.retry_count = 0) := by
  constructor
  · intro t t' h
    induction h with
    | refl => exact le_refl _
    | tail hab hbc ih => exact le_trans ih (task_step_long_retry_mono hbc)
  · intro t msg s p nc ne hmax hlong
    have h1 : ¬ (t.retry_count + 1 < t.max_retries) := by omega
    simp [process_task, process_failure, h1, hlong]

/-- C9 witness: the invariant instantiated on a concrete task and a
concrete escalating step. -/
theorem retry_counter_invariant_witness :
    (mk_priority_task 1 0).long_retry_count ≤
      (mk_priority_task 1 0).long_retry_count ∧
    (process_task default_config escalation_example_task false
        (.failure "x") .processing { status := "processing", message := "" }
        0 0).task_after.retry_count = 0 := by
  have h := retry_counter_invariant default_config
  exact ⟨h.1 _ _ Relation.ReflTransGen.refl,
    h.2 escalation_example_task "x" .processing
      { status := "processing", message := "" } 0 0 (by decide) (by decide)⟩

/-- C10: a `result_id` that was never added (absent from the status and
progress tables) is reported by `get_status` as a pending evaluation:
status string `"pending"`, not complete, results not viewable. -/
theorem get_status_unknown_pending (S : QueueState) (rid : String)
    (hstatus : lookup_assoc S.status rid = none)
    (hprog : lookup_assoc S.progress rid = none) :
    (get_status S rid).status = "pending" ∧
    (get_status S rid).is_complete = false ∧
    (get_status S rid).can_view_results = false := by
  simp [get_status, hstatus, hprog, status_value]

/-- C10 witness: querying a fresh queue for an unknown id. -/
theorem get_status_unknown_pending_witness :
    (get_status initial_state "unknown").status = "pending" ∧
    (get_status initial_state "unknown").is_complete = false ∧
    (get_status initial_state "unknown").can_view_results = false :=
  get_status_unknown_pending initial_state "unknown" rfl rfl

theorem recover_step_eq (cfg : QueueConfig) (now : ℚ)
    (acc : QueueState × Nat) (r : RecoverySnapshot) :
    recover_step cfg now acc r =
      ((add_task cfg acc.1 (snapshot_args r) now).2, acc.2 + 1) := by
  simp [recover_step, add_task]

theorem recover_fold_invariant (cfg : QueueConfig) (now : ℚ) :
    ∀ (snaps : List RecoverySnapshot) (S : QueueState) (k : Nat),
    ((snaps.foldl (recover_step cfg now) (S, k)).1.queue.length
        = S.queue.length + snaps.length) ∧
    ((snaps.foldl (recover_step cfg now) (S, k)).2 = k + snaps.length) ∧
    (∀ t ∈ (snaps.foldl (recover_step cfg now) (S, k)).1.queue,
      t ∈ S.queue ∨
        (t.priority = 0 ∧ t.retry_count = 0 ∧ t.long_retry_count = 0)) := by
  intro snaps
  induction snaps with
  | nil =>
    intro S k
    exact ⟨by simp, by simp, fun t ht => Or.inl ht⟩
  | cons r rs ih =>
    intro S k
    simp only [List.foldl_cons, recover_step_eq]
    obtain ⟨ih1, ih2, ih3⟩ := ih (add_task cfg S (snapshot_args r) now).2 (k + 1)
    have hq : (add_task cfg S (snapshot_args r) now).2.queue =
        heappush S.queue (build_task cfg (snapshot_args r) now) := rfl
    refine ⟨?_, ?_, ?_⟩
    · rw [ih1, hq, heappush_length]
      simp only [List.length_cons]
      omega
    · rw [ih2]
      simp only [List.length_cons]
      omega
    · intro t ht
      rcases ih3 t ht with h1 | h1
      · rw [hq] at h1
        rcases heappush_mem _ _ _ h1 with h2 | h2
        · exact Or.inl h2
        · subst h2
          exact Or.inr ⟨rfl, rfl, rfl⟩
      · exact Or.inr h1

/-- C8: recovery at startup (empty in-memory state) re-enqueues exactly
one task per recovered snapshot, reports them all recovered, and every
enqueued task carries priority 0, `retry_count` 0 and
`long_retry_count` 0, independent of the counters the task had before
the crash (the `persisted_*` snapshot fields are never read). -/
theorem recovery_requeues_all_reset (cfg : QueueConfig)
    (snapshots : List RecoverySnapshot) (now : ℚ) :
    ((recover_pending_evaluations cfg snapshots initial_state
        now).1.queue.length = snapshots.length) ∧
    ((recover_pending_evaluations cfg snapshots initial_state now).2 =
      snapshots.length) ∧
    (∀ t ∈ (recover_pending_evaluations cfg snapshots initial_state
        now).1.queue,
      t.priority = 0 ∧ t.retry_count = 0 ∧ t.long_retry_count = 0) := by
  obtain ⟨h1, h2, h3⟩ :=
    recover_fold_invariant cfg now snapshots initial_state 0
  refine ⟨by simpa [initial_state] using h1, by simpa using h2, ?_⟩
  intro t ht
  rcases h3 t ht with h4 | h4
  · simp [initial_state] at h4
  · exact h4

/-- C6 (amended): a task with no `short` or `essay` question is scored
by the local MCQ-only path without calling the Evaluator, but its
dispatch is still rate-limited exactly like any other task: the worker
sleeps the remaining inter-dispatch interval before dequeuing it (a
positive wait whenever the interval has not yet elapsed) and records a
new last-dispatch time afterwards. -/
theorem mcq_only_local_scoring_rate_limited (cfg : QueueConfig)
    (last_request_time now finish_time : ℚ) (task : EvaluationTask)
    (h : has_subjective task.questions = false) :
    (worker_iteration cfg last_request_time now task
        finish_time).evaluator_called = false ∧
    (worker_iteration cfg last_request_time now task
        finish_time).rate_wait = rate_limit_wait cfg last_request_time now ∧
    (now - last_request_time < min_request_interval cfg →
      0 < (worker_iteration cfg last_request_time now task
        finish_time).rate_wait) ∧
    (worker_iteration cfg last_request_time now task
        finish_time).last_request_time_after = finish_time := by
  refine ⟨by simp [worker_iteration, h], rfl, ?_, rfl⟩
  intro hlt
  simp only [worker_iteration, rate_limit_wait, if_pos hlt]
  linarith

/-- C6 witness: an MCQ-only task dispatched 1 s after the previous
dispatch under a 10-per-minute limit skips the Evaluator yet sees a
positive rate-limit wait. -/
theorem mcq_only_local_scoring_rate_limited_witness :
    (worker_iteration default_config 0 1 mcq_only_task
        7).evaluator_called = false ∧
    0 < (worker_iteration default_config 0 1 mcq_only_task 7).rate_wait := by
  have h := mcq_only_local_scoring_rate_limited default_config 0 1 7
    mcq_only_task (by decide)
  refine ⟨h.1, h.2.2.1 ?_⟩
  norm_num [min_request_interval, default_config]

/-- C6 counterexample: the claim that an MCQ-only task bypasses the
Rate Limiter entirely is false: with the default 10-per-minute limit
and 1 s since the last dispatch, the worker sleeps 5 s before the
MCQ-only dispatch and then records a new last-dispatch time. -/
theorem mcq_only_rate_limit_counterexample :
    (worker_iteration default_config 0 1 mcq_only_task 7).rate_wait = 5 ∧
    ¬ ((worker_iteration default_config 0 1 mcq_only_task 7).rate_wait
        = 0) ∧
    (worker_iteration default_config 0 1 mcq_only_task
        7).evaluator_called = false ∧
    (worker_iteration default_config 0 1 mcq_only_task
        7).last_request_time_after = 7 := by
  refine ⟨?_, ?_, by decide, rfl⟩ <;>
    norm_num [worker_iteration, rate_limit_wait, min_request_interval,
      default_config]

theorem round_half_even_nonneg {q : ℚ} (h : 0 ≤ q) :
    0 ≤ round_half_even q := by
  unfold round_half_even
  have hf : (0 : ℤ) ≤ ⌊q⌋ := Int.floor_nonneg.mpr h
  split
  · exact hf
  · split
    · omega
    · split <;> omega

theorem round2_nonneg {q : ℚ} (h : 0 ≤ q) : 0 ≤ round2 q := by
  unfold round2
  have h1 := round_half_even_nonneg (q := q * 100) (by positivity)
  exact div_nonneg (by exact_mod_cast h1) (by norm_num)

/-- C5: in `partial` mode, a non-empty submission `S` different from the
correct set `C` earns `round(marks * (hits - misses) / |C|, 2)` (a
non-negative value, so the zero floor is inert) when `hits > misses`
and zero otherwise, and an enabled configured penalty contributes
`penalty_per_wrong * misses` whenever there is at least one wrong
selection, regardless of whether partial marks were awarded. -/
theorem mcq_partial_scoring (q : Question) (S : Finset Nat)
    (neg : List (String × SectionConfig)) (stype : String)
    (hne : S ≠ ∅) (hneq : S ≠ q.correct_answers) (hmarks : 0 ≤ q.marks) :
    (((S \ q.correct_answers).card < (S ∩ q.correct_answers).card →
      (evaluate_mcq_multi q S neg stype "partial").marks_obtained =
        round2 (q.marks *
          (((S ∩ q.correct_answers).card : ℚ) -
            ((S \ q.correct_answers).card : ℚ)) /
          (q.correct_answers.card : ℚ)) ∧
      0 ≤ (evaluate_mcq_multi q S neg stype "partial").marks_obtained)) ∧
    (((S ∩ q.correct_answers).card ≤ (S \ q.correct_answers).card →
      (evaluate_mcq_multi q S neg stype "partial").marks_obtained = 0)) ∧
    (∀ sc : SectionConfig, 0 < (S \ q.correct_answers).card →
      lookup_section neg stype = some sc → sc.enabled = true →
      (evaluate_mcq_multi q S neg stype "partial").negative_marks_applied
        = sc.mcq_negative_marks * ((S \ q.correct_answers).card : ℚ)) := by
  have hmode : ¬ (("partial" : String) = "strict") := by decide
  refine ⟨?_, ?_, ?_⟩
  · intro hlt
    have hx : (0 : ℚ) ≤ q.marks *
        (((S ∩ q.correct_answers).card : ℚ) -
          ((S \ q.correct_answers).card : ℚ)) /
        (q.correct_answers.card : ℚ) := by
      apply div_nonneg
      · apply mul_nonneg hmarks
        have hc : ((S \ q.correct_answers).card : ℚ) <
            ((S ∩ q.correct_answers).card : ℚ) := by exact_mod_cast hlt
        linarith
      · exact Nat.cast_nonneg _
    constructor
    · unfold evaluate_mcq_multi
      rw [if_pos hne, if_neg hneq]
      dsimp only
      rw [if_neg hmode]
      dsimp only
      rw [if_pos hlt, max_eq_right hx]
    · unfold evaluate_mcq_multi
      rw [if_pos hne, if_neg hneq]
      dsimp only
      rw [if_neg hmode]
      dsimp only
      rw [if_pos hlt, max_eq_right hx]
      exact round2_nonneg hx
  · intro hle
    unfold evaluate_mcq_multi
    rw [if_pos hne, if_neg hneq]
    dsimp only
    rw [if_neg hmode]
    dsimp only
    rw [if_neg (not_lt.mpr hle)]
  · intro sc hmiss hlook hen
    unfold evaluate_mcq_multi
    rw [if_pos hne, if_neg hneq]
    dsimp only
    rw [if_neg hmode]
    dsimp only
    rw [if_pos hmiss, hlook]
    dsimp only
    rw [if_pos hen]

/-- C5 witness: `correct_answers = [0, 2]`, marks 10, submission
`[0, 1]` in partial mode with an enabled penalty of 1 per wrong:
`hits = misses = 1` gives zero marks, penalty `1 * 1 = 1`. -/
theorem mcq_partial_scoring_witness :
    (evaluate_mcq_multi sample_mcq_question {0, 1} sample_penalty_config
        "technical" "partial").marks_obtained = 0 ∧
    (evaluate_mcq_multi sample_mcq_question {0, 1} sample_penalty_config
        "technical" "partial").negative_marks_applied = 1 := by
  have h := mcq_partial_scoring sample_mcq_question {0, 1}
    sample_penalty_config "technical" (by decide) (by decide) (by decide)
  have h2 := h.2.1 (by decide)
  have h3 := h.2.2
    { enabled := true, mcq_negative_marks := 1, apply_to_unanswered := false }
    (by decide) (by decide) rfl
  constructor
  · exact h2
  · rw [h3]
    norm_num
    decide

/-- C4 (amended): every dequeue returns a task of minimal `priority`
among all queued tasks and preserves the heap invariant, as does every
push — in particular tasks with priorities [2, 0, 1] enqueued in that
order are dequeued in priority order [0, 1, 2] — but ties between
equal priorities are resolved by the binary-heap layout, not by
`created_at`, which the dataclass excludes from comparison. -/
theorem priority_queue_dequeue_order :
    (∀ (l : List EvaluationTask) (t : EvaluationTask),
      heapInv l → heapInv (heappush l t)) ∧
    (∀ (l l' : List EvaluationTask) (t : EvaluationTask), heapInv l →
      heappop l = some (t, l') →
      heapInv l' ∧ ∀ y ∈ l, t.priority ≤ y.priority) ∧
    (heappop (heappush (heappush (heappush [] (mk_priority_task 2 0))
          (mk_priority_task 0 1)) (mk_priority_task 1 2)) =
        some (mk_priority_task 0 1,
          [mk_priority_task 1 2, mk_priority_task 2 0]) ∧
      heappop [mk_priority_task 1 2, mk_priority_task 2 0] =
        some (mk_priority_task 1 2, [mk_priority_task 2 0]) ∧
      heappop [mk_priority_task 2 0] = some (mk_priority_task 2 0, [])) := by
  refine ⟨fun l t h => heapInv_heappush t h,
    fun l l' t h hp => ⟨(heappop_spec h hp).1, (heappop_spec h hp).2.2.2⟩,
    ?_, ?_, ?_⟩ <;>
    simp [heappush, heappop, siftupAux_eq_leaf, siftupAux_eq_step,
      siftdownAux_eq_stop, siftdownAux_eq_step_lt, siftdownAux_eq_step_ge,
      mk_priority_task, List.getD_cons_zero, List.getD_cons_succ]

/-- C4 witness: the push and pop facts instantiated on concrete
one-task queues. -/
theorem priority_queue_dequeue_order_witness :
    heapInv (heappush [mk_priority_task 1 0] (mk_priority_task 0 1)) ∧
    (∀ y ∈ [mk_priority_task 1 0],
      (mk_priority_task 1 0).priority ≤ y.priority) := by
  refine ⟨priority_queue_dequeue_order.1 _ _ (by decide), ?_⟩
  exact (priority_queue_dequeue_order.2.1 [mk_priority_task 1 0] []
    (mk_priority_task 1 0) (by decide) rfl).2

/-- C4 counterexample: four equal-priority tasks created at times
0, 1, 2, 3 and pushed in that order; the second dequeue returns the
task created at time 2 while the earlier task created at time 1 is
still queued, so equal-priority ties are not broken by `created_at`. -/
theorem created_at_tiebreak_counterexample :
    heappush (heappush (heappush (heappush [] (mk_priority_task 1 0))
        (mk_priority_task 1 1)) (mk_priority_task 1 2))
        (mk_priority_task 1 3)
      = [mk_priority_task 1 0, mk_priority_task 1 1, mk_priority_task 1 2,
          mk_priority_task 1 3] ∧
    heappop [mk_priority_task 1 0, mk_priority_task 1 1,
        mk_priority_task 1 2, mk_priority_task 1 3]
      = some (mk_priority_task 1 0,
          [mk_priority_task 1 2, mk_priority_task 1 1,
            mk_priority_task 1 3]) ∧
    heappop [mk_priority_task 1 2, mk_priority_task 1 1,
        mk_priority_task 1 3]
      = some (mk_priority_task 1 2,
          [mk_priority_task 1 1, mk_priority_task 1 3]) ∧
    (mk_priority_task 1 1).priority = (mk_priority_task 1 2).priority ∧
    (mk_priority_task 1 1).created_at < (mk_priority_task 1 2).created_at ∧
    mk_priority_task 1 1 ∈ [mk_priority_task 1 1, mk_priority_task 1 3] := by
  refine ⟨?_, ?_, ?_, rfl, by norm_num [mk_priority_task], by simp⟩ <;>
    simp [heappush, heappop, siftupAux_eq_leaf, siftupAux_eq_step,
      siftdownAux_eq_stop, siftdownAux_eq_step_lt, siftdownAux_eq_step_ge,
      mk_priority_task, List.getD_cons_zero, List.getD_cons_succ]

theorem heappush_countP (l : List EvaluationTask) (t : EvaluationTask)
    (p : EvaluationTask → Bool) :
    (heappush l t).countP p = l.countP p + (if p t then 1 else 0) := by
  rw [(heappush_perm l t).countP_eq, List.countP_append]
  simp [List.countP_cons]

/-- C7 (amended): a second `add_task` with the same `result_id` is
neither rejected nor a no-op: both calls return true and the queue then
holds two tasks with that `result_id` (the count rises by exactly 2),
and each copy that is later processed successfully issues its own
`update_exam_result_with_evaluation` write, so the duplicate leads to
two Durable Store writes. -/
theorem duplicate_add_task_enqueues_twice (cfg : QueueConfig)
    (S : QueueState) (a : AddTaskArgs) (t1 t2 : ℚ) :
    (add_task cfg S a t1).1 = true ∧
    (add_task cfg (add_task cfg S a t1).2 a t2).1 = true ∧
    ((add_task cfg (add_task cfg S a t1).2 a t2).2.queue.countP
        (fun t => t.result_id = a.result_id)) =
      S.queue.countP (fun t => t.result_id = a.result_id) + 2 ∧
    (∀ (t : EvaluationTask) (s : EvaluationStatus) (p : ProgressRecord)
      (nc ne : Nat),
      (process_task cfg t false .success s p nc ne).store_ops =
        [StoreOp.updateResult t.result_id]) := by
  refine ⟨rfl, rfl, ?_, ?_⟩
  · have hq1 : (add_task cfg S a t1).2.queue =
        heappush S.queue (build_task cfg a t1) := rfl
    have hq2 : (add_task cfg (add_task cfg S a t1).2 a t2).2.queue =
        heappush (add_task cfg S a t1).2.queue (build_task cfg a t2) := rfl
    rw [hq2, hq1, heappush_countP, heappush_countP]
    simp [build_task]
  · intro t s p nc ne
    simp [process_task]

/-- C7 counterexample: adding the same `result_id` twice from a fresh
queue is accepted both times and leaves two queued tasks carrying that
id — the second call neither rejects the duplicate nor leaves the state
unchanged. -/
theorem duplicate_add_task_counterexample :
    (add_task default_config
        (add_task default_config initial_state dup_args 0).2 dup_args 1).1
      = true ∧
    (add_task default_config initial_state dup_args 0).2.queue.length = 1 ∧
    (add_task default_config
        (add_task default_config initial_state dup_args 0).2 dup_args
        1).2.queue.length = 2 ∧
    ((add_task default_config
        (add_task default_config initial_state dup_args 0).2 dup_args
        1).2.queue.filter (fun t => t.result_id = "r1")).length = 2 ∧
    (add_task default_config
        (add_task default_config initial_state dup_args 0).2 dup_args 1).2
      ≠ (add_task default_config initial_state dup_args 0).2 := by
  have e1 : (add_task default_config initial_state dup_args 0).2.queue.length
      = 1 := by
    have hq : (add_task default_config initial_state dup_args 0).2.queue =
        heappush initial_state.queue (build_task default_config dup_args 0) :=
      rfl
    rw [hq, heappush_length]
    rfl
  have e2 : (add_task default_config
      (add_task default_config initial_state dup_args 0).2 dup_args
      1).2.queue.length = 2 := by
    have hq : (add_task default_config
        (add_task default_config initial_state dup_args 0).2 dup_args
        1).2.queue =
        heappush (add_task default_config initial_state dup_args 0).2.queue
          (build_task default_config dup_args 1) := rfl
    rw [hq, heappush_length, e1]
  refine ⟨rfl, e1, e2, ?_, ?_⟩
  · simp [add_task, build_task, initial_state, dup_args, heappush,
      siftdownAux_eq_stop, siftdownAux_eq_step_lt, siftdownAux_eq_step_ge,
      List.getD_cons_zero, List.getD_cons_succ]
  · intro heq
    rw [heq, e1] at e2
    exact absurd e2 (by decide)
